import Mathlib

/-!
Shallow embedding of `src/views/stream_browser.rs` (the `StreamsView`
component of the esdb terminal browser).

Modelling conventions:
- Rust `usize` / `u16` arithmetic is modelled on `Nat` with explicit
  wrap-around `% 2^64` / `% 2^16` where the source may overflow
  (release-build semantics: unchecked arithmetic wraps).
- Out-of-bounds `Vec` indexing aborts in Rust in every build profile;
  the key handler therefore returns `Option (StreamsView × Request)`,
  with `none` modelling the abort.
- The asynchronous read client is modelled by explicit response
  sequences: each element of a step list is what one `stream.next()`
  call returns (`Except.error e`, `Except.ok (some ev)`, or
  `Except.ok none` for end-of-stream; an exhausted list also means
  end-of-stream).
- Rendering collaborators (tui tables, `render_line_numbers`,
  `serde_json`) are external; the preview-payload computation is
  parameterised by those collaborators.
-/

namespace StreamBrowser

/-- The subset of `eventstore::Error` the component discriminates on:
`ResourceNotFound` is matched explicitly in `read_stream_next`; every
other variant is collapsed into `otherError` with a message. -/
inductive ESError where
  | ResourceNotFound
  | otherError (msg : String)
deriving DecidableEq, Repr

/-- The fields of a resolved event record the component reads:
the owning stream identifier, the raw payload (a UTF-8 string in the
paths the component parses), and the JSON flag. Remaining fields
(revision, event type, created date) are only echoed into table cells
and are not modelled. -/
structure Event where
  stream_id : String
  data : String
  is_json : Bool
deriving DecidableEq, Repr

/-- Rust `enum Stage` from the source. -/
inductive Stage where
  | Main
  | Stream
  | StreamPreview
  | Search
deriving DecidableEq, Repr

/-- The `crossterm::event::KeyCode` type, restricted to the variants the handler
matches on; every other key code behaves as `OtherKey`. -/
inductive KeyCode where
  | Esc
  | Backspace
  | Enter
  | Left
  | Right
  | Up
  | Down
  | Char (c : Char)
  | OtherKey
deriving DecidableEq, Repr

/-- The `crate::views::Request` type, the signal returned to the host shell. -/
inductive Request where
  | Noop
  | Refresh
  | Exit
deriving DecidableEq, Repr

/-- Rust `struct Model` from the source. -/
structure Model where
  last_created : List String
  recently_changed : List String
  selected_stream : Option String
  selected_stream_events : List Event
deriving DecidableEq, Repr

def Model.default : Model :=
  { last_created := []
    recently_changed := []
    selected_stream := none
    selected_stream_events := [] }

/-- Rust `struct StreamsView` (the tui `TableState` caches are render-only
and not modelled). `scroll` is a `u16` in the source; `selected` and
`selected_tab` are `usize`. -/
structure StreamsView where
  selected_tab : Nat
  selected : Nat
  model : Model
  stage : Stage
  scroll : Nat
  buffer : String
  last_error : Option ESError
deriving DecidableEq, Repr

/-- Initial view state, `StreamsView::default()`. -/
def StreamsView.default : StreamsView :=
  { selected_tab := 0
    selected := 0
    model := Model.default
    stage := Stage.Main
    scroll := 0
    buffer := ""
    last_error := none }

/-- Wrap-around modulus of `usize`, 2^64. -/
def USIZE : Nat := 2 ^ 64

/-- Wrap-around modulus of `u16`, 2^16. -/
def U16 : Nat := 2 ^ 16

/-- Rust `String::pop` on the buffer: remove the last character. -/
def stringPop (s : String) : String := ⟨s.data.dropLast⟩

/-- The error-overlay interception block at the top of
`StreamsView::on_key_pressed` (runs when `last_error` is set). -/
def handleErrorKey (v : StreamsView) (key : KeyCode) : Option (StreamsView × Request) :=
  match key with
  | KeyCode.Char c =>
    if c = 'q' ∨ c = 'Q' then
      some ({ v with last_error := none
                     stage := Stage.Main
                     model := { v.model with selected_stream := none } }, Request.Noop)
    else
      some (v, Request.Noop)
  | _ => some (v, Request.Noop)

/-- The Search-stage block of `StreamsView::on_key_pressed`. -/
def handleSearchKey (v : StreamsView) (key : KeyCode) : Option (StreamsView × Request) :=
  match key with
  | KeyCode.Esc => some ({ v with stage := Stage.Main }, Request.Noop)
  | KeyCode.Backspace => some ({ v with buffer := stringPop v.buffer }, Request.Noop)
  | KeyCode.Enter =>
    some ({ v with selected := 0
                   stage := Stage.Stream
                   model := { v.model with selected_stream := some v.buffer }
                   buffer := "" }, Request.Refresh)
  | KeyCode.Char c =>
    if c.toNat ≤ 127 then some ({ v with buffer := v.buffer.push c }, Request.Noop)
    else some (v, Request.Noop)
  | _ => some (v, Request.Noop)

/-- The final `match key` of `StreamsView::on_key_pressed` (runs with no
pending error and outside the Search stage). `none` models a Rust
abort (the unguarded `rows[self.selected]` index in the Main-stage
Enter branch). `len - 1` in the Down branches is the source's `usize`
subtraction, modelled wrapping: `(len + (USIZE - 1)) % USIZE`. -/
def handleStageKey (v : StreamsView) (key : KeyCode) : Option (StreamsView × Request) :=
  match key with
  | KeyCode.Char c =>
    if c = 'q' ∨ c = 'Q' then
      match v.stage with
      | Stage.Main => some (v, Request.Exit)
      | Stage.Search => some (v, Request.Noop)
      | Stage.Stream => some ({ v with stage := Stage.Main, selected := 0 }, Request.Noop)
      | Stage.StreamPreview =>
        some ({ v with scroll := 0, stage := Stage.Stream }, Request.Noop)
    else if c = '/' then
      if v.stage = Stage.Main then some ({ v with stage := Stage.Search }, Request.Noop)
      else some (v, Request.Noop)
    else some (v, Request.Noop)
  | KeyCode.Left =>
    some ({ v with selected_tab := (v.selected_tab + 1) % 2, selected := 0 }, Request.Noop)
  | KeyCode.Right =>
    some ({ v with selected_tab := (v.selected_tab + 1) % 2, selected := 0 }, Request.Noop)
  | KeyCode.Up =>
    if v.stage = Stage.StreamPreview then
      if v.scroll > 0 then some ({ v with scroll := v.scroll - 1 }, Request.Noop)
      else some (v, Request.Noop)
    else if v.selected > 0 then some ({ v with selected := v.selected - 1 }, Request.Noop)
    else some (v, Request.Noop)
  | KeyCode.Down =>
    match v.stage with
    | Stage.Main =>
      let len :=
        if v.selected_tab = 0 then v.model.last_created.length
        else v.model.recently_changed.length
      if v.selected < (len + (USIZE - 1)) % USIZE then
        some ({ v with selected := (v.selected + 1) % USIZE }, Request.Noop)
      else some (v, Request.Noop)
    | Stage.Stream =>
      if v.selected < (v.model.selected_stream_events.length + (USIZE - 1)) % USIZE then
        some ({ v with selected := (v.selected + 1) % USIZE }, Request.Noop)
      else some (v, Request.Noop)
    | Stage.StreamPreview =>
      some ({ v with scroll := (v.scroll + 1) % U16 }, Request.Noop)
    | _ => some (v, Request.Noop)
  | KeyCode.Enter =>
    if v.stage = Stage.Main then
      let rows :=
        if v.selected_tab = 0 then v.model.last_created else v.model.recently_changed
      match rows.get? v.selected with
      | none => none
      | some s =>
        some ({ v with stage := Stage.Stream
                       model := { v.model with selected_stream := some s }
                       selected := 0 }, Request.Refresh)
    else if v.stage = Stage.Stream then
      some ({ v with stage := Stage.StreamPreview }, Request.Refresh)
    else some (v, Request.Noop)
  | _ => some (v, Request.Noop)

/-- The handler `StreamsView::on_key_pressed`, translated block by
block: error interception first, then the Search-stage block, then the
stage dispatch. -/
def on_key_pressed (v : StreamsView) (key : KeyCode) : Option (StreamsView × Request) :=
  if v.last_error.isSome then handleErrorKey v key
  else if v.stage = Stage.Search then handleSearchKey v key
  else handleStageKey v key

/-- Fold a key sequence through the handler, dropping the requests;
`none` as soon as any key press aborts. -/
def pressKeys (v : StreamsView) : List KeyCode → Option StreamsView
  | [] => some v
  | k :: ks =>
    match on_key_pressed v k with
    | none => none
    | some (v', _) => pressKeys v' ks

/-- One response of `stream.next()` on an `eventstore::ReadStream`. -/
abbrev Step : Type := Except ESError (Option Event)

/-- The read client, modelled by the response sequence each of the
component's four distinct read calls observes. -/
structure Env where
  /-- Responses of `client.read_stream("$streams", max_count 20, from end, backwards)`. -/
  streamsSteps : List Step
  /-- Responses of `client.read_all(max_count 20, from end, backwards)`. -/
  allSteps : List Step
  /-- Responses of `client.read_all(max_count 500, resolve_link_tos, from end, backwards)`. -/
  readAll500 : List Step
  /-- Responses of `client.read_stream(name, max_count 500, resolve_link_tos, from end, backwards)`. -/
  readStream500 : String → List Step

/-- The helper `read_stream_next` (bottom of the source file): passes `next()`
results through, converting `Error::ResourceNotFound` into a benign
end-of-stream `Ok(None)`. -/
def read_stream_next (step : Step) : Except ESError (Option Event) :=
  match step with
  | Except.error ESError.ResourceNotFound => Except.ok none
  | Except.error e => Except.error e
  | Except.ok v => Except.ok v

/-- The catalog-load loop shape
`while let Some(event) = read_stream_next(&mut s).await? { .. }`:
collects events until end-of-stream, treating `ResourceNotFound` as
end-of-stream and propagating every other error. -/
def collectBenign : List Step → Except ESError (List Event)
  | [] => Except.ok []
  | step :: rest =>
    match read_stream_next step with
    | Except.error e => Except.error e
    | Except.ok none => Except.ok []
    | Except.ok (some ev) =>
      match collectBenign rest with
      | Except.error e => Except.error e
      | Except.ok evs => Except.ok (ev :: evs)

/-- The refresh loop shape
`while let Some(event) = stream.next().await? { events.push(event) }`:
collects events until end-of-stream, propagating every error,
`ResourceNotFound` included. -/
def collectStrict : List Step → Except ESError (List Event)
  | [] => Except.ok []
  | step :: rest =>
    match step with
    | Except.error e => Except.error e
    | Except.ok none => Except.ok []
    | Except.ok (some ev) =>
      match collectStrict rest with
      | Except.error e => Except.error e
      | Except.ok evs => Except.ok (ev :: evs)

/-- Helper for `rsplitOnce`: split a (reversed) character list at the
first occurrence of `sep`. -/
def rsplitAux (sep : Char) : List Char → Option (List Char × List Char)
  | [] => none
  | c :: cs =>
    if c = sep then some ([], cs)
    else
      match rsplitAux sep cs with
      | none => none
      | some (a, b) => some (c :: a, b)

/-- Rust `str::rsplit_once(sep)`: split around the last occurrence of
`sep`, returning `(before, after)`, or `none` when `sep` is absent. -/
def rsplitOnce (sep : Char) (s : String) : Option (String × String) :=
  match rsplitAux sep s.data.reverse with
  | none => none
  | some (afterRev, beforeRev) => some (⟨beforeRev.reverse⟩, ⟨afterRev.reverse⟩)

/-- The `$streams` projection payload parse in `load_streams`:
`data.rsplit_once('@').unwrap_or_default()`, keeping the part after the
final `@` as the stream name (empty string when no `@` is present). -/
def streamNameOfData (data : String) : String :=
  ((rsplitOnce '@' data).getD ("", "")).snd

/-- The second `load_streams` loop: collect each event's owning stream
identifier, skipping identifiers already present (membership check on
the list being built, appended most-recent-first in read order). -/
def buildRecentlyChanged (events : List Event) : List String :=
  events.foldl
    (fun acc ev => if acc.contains ev.stream_id then acc else acc ++ [ev.stream_id]) []

/-- The catalog load `StreamsView::load_streams`: two reads (the `$streams` projection
and the global log), both through `read_stream_next`; on success the
whole model is replaced with the freshly built one, on failure the
error propagates to the caller and the view is untouched. -/
def load_streams (env : Env) (v : StreamsView) : Except ESError StreamsView :=
  match collectBenign env.streamsSteps with
  | Except.error e => Except.error e
  | Except.ok created =>
    match collectBenign env.allSteps with
    | Except.error e => Except.error e
    | Except.ok changed =>
      Except.ok
        { v with model :=
            { last_created := created.map (fun ev => streamNameOfData ev.data)
              recently_changed := buildRecentlyChanged changed
              selected_stream := none
              selected_stream_events := [] } }

/-- Rust `str::trim` on the selected stream name: strip leading and
trailing whitespace (defined over the character list so that it
evaluates by reduction). -/
def rustTrim (s : String) : String :=
  ⟨(((s.data.dropWhile Char.isWhitespace).reverse.dropWhile Char.isWhitespace).reverse)⟩

/-- The entry point `StreamsView::refresh`: a no-op in `StreamPreview`; with a selected
stream, re-reads its events (`$all` sentinel selects the global log)
and on any error stores it into `last_error` and clears the event
list; with no selected stream, reloads the catalog. -/
def refresh (env : Env) (v : StreamsView) : Except ESError StreamsView :=
  if v.stage = Stage.StreamPreview then Except.ok v
  else
    match v.model.selected_stream with
    | some stream_name =>
      let steps :=
        if rustTrim stream_name = "$all" then env.readAll500 else env.readStream500 stream_name
      match collectStrict steps with
      | Except.error e =>
        Except.ok
          { v with last_error := some e
                   model := { v.model with selected_stream_events := [] } }
      | Except.ok xs =>
        Except.ok { v with model := { v.model with selected_stream_events := xs } }
    | none => load_streams env v

/-- The scroll clamp in `StreamsView::draw` for the `StreamPreview`
stage, with `areaH` the preview rectangle height and `contentH` the
rendered text height: if everything fits (margin 2 included) scrolling
is locked to 0, otherwise `scroll` is capped at `contentH + 2 - areaH`.
`2 + text.height() as u16` is `u16` arithmetic, modelled wrapping. -/
def clampScroll (areaH contentH scroll : Nat) : Nat :=
  let total := (2 + contentH % U16) % U16
  if areaH ≥ total then 0
  else if scroll > total - areaH then total - areaH
  else scroll

/-- Outcome of the preview-payload rendering in `StreamsView::draw`:
either the pretty-printed JSON run through `render_line_numbers`, the
fixed `<BINARY>` placeholder, or a Rust abort (`.unwrap()` on a failed
parse). -/
inductive PreviewContent where
  | panicked
  | rendered (s : String)
  | binaryPlaceholder
deriving DecidableEq, Repr

/-- The payload-content computation at the bottom of the
`StreamPreview` draw arm. `renderLN` models the external
`render_line_numbers`; `parse` models
`serde_json::from_slice` composed with `to_string_pretty`, `none`
meaning the parse fails; `PreviewContent.panicked` models the
resulting `.unwrap()` abort. -/
def renderPayload (renderLN : String → String) (parse : String → Option String)
    (ev : Event) : PreviewContent :=
  if ev.is_json then
    match parse ev.data with
    | none => PreviewContent.panicked
    | some s => PreviewContent.rendered (renderLN s)
  else PreviewContent.binaryPlaceholder

/-- Whether a key is the error-overlay dismiss key, `q` or `Q`. -/
def isDismissKey : KeyCode → Bool
  | KeyCode.Char c => c == 'q' || c == 'Q'
  | _ => false

/-! Theorems about the claims. -/

/-- Claim C1: pressing Down with an empty active list should be a
no-failure no-op that leaves `selected` at 0. The source instead
evaluates `self.selected < len - 1` with `len = 0`: the `usize`
subtraction wraps (release build) to `2^64 - 1`, so the guard passes
and `selected` becomes 1 — both in the Stream stage against
`selected_stream_events` and in the Main stage against the active
catalog list. (With overflow checks enabled the same subtraction
aborts instead.) -/
theorem down_on_empty_list_increments_selected :
    on_key_pressed { StreamsView.default with stage := Stage.Stream } KeyCode.Down
      = some ({ StreamsView.default with stage := Stage.Stream, selected := 1 }, Request.Noop)
    ∧ on_key_pressed StreamsView.default KeyCode.Down
      = some ({ StreamsView.default with selected := 1 }, Request.Noop) := by
  constructor <;> rfl

/-- Claim C10: in the Main stage with `selected = 0` and the active
list empty, Enter evaluates `rows[self.selected]` with no bounds
guard, an out-of-bounds access that aborts the program (modelled by
the handler returning `none`). -/
theorem enter_on_empty_main_list_aborts (v : StreamsView)
    (hErr : v.last_error = none) (hStage : v.stage = Stage.Main) (hSel : v.selected = 0)
    (hEmpty : (if v.selected_tab = 0 then v.model.last_created
               else v.model.recently_changed) = []) :
    on_key_pressed v KeyCode.Enter = none := by
  simp [on_key_pressed, handleStageKey, hErr, hStage, hSel, hEmpty]

/-- Witness for C10: the freshly initialised view (Main stage, empty
catalog, `selected = 0`) aborts on Enter. -/
theorem enter_on_empty_main_list_aborts_witness :
    on_key_pressed StreamsView.default KeyCode.Enter = none :=
  enter_on_empty_main_list_aborts StreamsView.default rfl rfl rfl rfl

/-- Claim C5: in the Search stage (with no pending error), Enter moves
the buffer verbatim into `selected_stream`, clears the buffer, resets
`selected` to 0, switches the stage to Stream, and returns the
refresh-request signal. -/
theorem search_enter_moves_buffer (v : StreamsView)
    (hErr : v.last_error = none) (hStage : v.stage = Stage.Search) :
    on_key_pressed v KeyCode.Enter
      = some ({ v with selected := 0
                       stage := Stage.Stream
                       model := { v.model with selected_stream := some v.buffer }
                       buffer := "" }, Request.Refresh) := by
  simp [on_key_pressed, handleSearchKey, hErr, hStage]

/-- Witness for C5: entering the buffer content "orders" and pressing
Enter yields `selected_stream = some "orders"` exactly. -/
theorem search_enter_moves_buffer_witness :
    on_key_pressed { StreamsView.default with stage := Stage.Search, buffer := "orders" }
        KeyCode.Enter
      = some ({ StreamsView.default with
                  selected := 0
                  stage := Stage.Stream
                  model := { Model.default with selected_stream := some "orders" }
                  buffer := "" }, Request.Refresh) :=
  search_enter_moves_buffer
    { StreamsView.default with stage := Stage.Search, buffer := "orders" } rfl rfl

/-- Claim C4: while the error overlay is set, every key returns the
no-op signal; the dismiss key (`q`/`Q`) clears the error, clears
`selected_stream` and forces the stage back to Main, and every other
key leaves the whole view unchanged. -/
theorem error_overlay_intercepts_keys (v : StreamsView) (k : KeyCode) (e : ESError)
    (hErr : v.last_error = some e) :
    (isDismissKey k = true →
      on_key_pressed v k
        = some ({ v with last_error := none
                         stage := Stage.Main
                         model := { v.model with selected_stream := none } }, Request.Noop))
    ∧ (isDismissKey k = false → on_key_pressed v k = some (v, Request.Noop)) := by
  have hSome : v.last_error.isSome = true := by rw [hErr]; rfl
  cases k with
  | Char c =>
    constructor
    · intro h
      have hc : c = 'q' ∨ c = 'Q' := by
        simpa [isDismissKey] using h
      simp [on_key_pressed, handleErrorKey, hSome, hc]
    · intro h
      have hc : ¬(c = 'q' ∨ c = 'Q') := by
        simp [isDismissKey] at h
        exact fun hor => hor.elim h.1 h.2
      simp [on_key_pressed, handleErrorKey, hSome, hc]
  | Esc => exact ⟨fun h => by simp [isDismissKey] at h, fun _ => by simp [on_key_pressed, handleErrorKey, hSome]⟩
  | Backspace =>
    exact ⟨fun h => by simp [isDismissKey] at h, fun _ => by simp [on_key_pressed, handleErrorKey, hSome]⟩
  | Enter => exact ⟨fun h => by simp [isDismissKey] at h, fun _ => by simp [on_key_pressed, handleErrorKey, hSome]⟩
  | Left => exact ⟨fun h => by simp [isDismissKey] at h, fun _ => by simp [on_key_pressed, handleErrorKey, hSome]⟩
  | Right => exact ⟨fun h => by simp [isDismissKey] at h, fun _ => by simp [on_key_pressed, handleErrorKey, hSome]⟩
  | Up => exact ⟨fun h => by simp [isDismissKey] at h, fun _ => by simp [on_key_pressed, handleErrorKey, hSome]⟩
  | Down => exact ⟨fun h => by simp [isDismissKey] at h, fun _ => by simp [on_key_pressed, handleErrorKey, hSome]⟩
  | OtherKey =>
    exact ⟨fun h => by simp [isDismissKey] at h, fun _ => by simp [on_key_pressed, handleErrorKey, hSome]⟩

/-- View used to exercise the error overlay: Stream stage, a selected
stream, and a captured transport failure. -/
def errView : StreamsView :=
  { StreamsView.default with
      stage := Stage.Stream
      model := { Model.default with selected_stream := some "orders" }
      last_error := some (ESError.otherError "deadline exceeded") }

/-- Witness for C4: on the concrete errored view, `q` dismisses (error
cleared, stage Main, selection cleared) and Down is swallowed
unchanged; both return the no-op signal. -/
theorem error_overlay_intercepts_keys_witness :
    on_key_pressed errView (KeyCode.Char 'q')
      = some ({ errView with last_error := none
                             stage := Stage.Main
                             model := { errView.model with selected_stream := none } },
          Request.Noop)
    ∧ on_key_pressed errView KeyCode.Down = some (errView, Request.Noop) :=
  ⟨(error_overlay_intercepts_keys errView (KeyCode.Char 'q')
      (ESError.otherError "deadline exceeded") rfl).1 rfl,
   (error_overlay_intercepts_keys errView KeyCode.Down
      (ESError.otherError "deadline exceeded") rfl).2 rfl⟩

/-- Read client on which every read of the selected stream reports
`ResourceNotFound`. -/
def envRNF : Env :=
  { streamsSteps := []
    allSteps := []
    readAll500 := [Except.error ESError.ResourceNotFound]
    readStream500 := fun _ => [Except.error ESError.ResourceNotFound] }

/-- View drilled into the stream "orders" (Stream stage). -/
def ordersView : StreamsView :=
  { StreamsView.default with
      stage := Stage.Stream
      model := { Model.default with selected_stream := some "orders" } }

/-- Counterexample to claim C2: the event refresh of a selected stream
does not treat a "source not found" error as benign end-of-data — the
refresh loop bypasses `read_stream_next`, so `ResourceNotFound` lands
in `last_error` and is shown by the error overlay. -/
theorem refresh_captures_not_found :
    refresh envRNF ordersView
      = Except.ok { ordersView with
          last_error := some ESError.ResourceNotFound
          model := { ordersView.model with selected_stream_events := [] } } := by
  rfl

/-- Helper: the catalog collection loop, which routes every `next()`
result through `read_stream_next`, can never fail with
`ResourceNotFound`. -/
theorem collectBenign_ne_notFound (steps : List Step) :
    collectBenign steps ≠ Except.error ESError.ResourceNotFound := by
  induction steps with
  | nil => simp [collectBenign]
  | cons step rest ih =>
    cases step with
    | error e =>
      cases e with
      | ResourceNotFound => simp [collectBenign, read_stream_next]
      | otherError msg => simp [collectBenign, read_stream_next]
    | ok o =>
      cases o with
      | none => simp [collectBenign, read_stream_next]
      | some ev =>
        simp only [collectBenign, read_stream_next]
        cases h : collectBenign rest with
        | error e2 =>
          rw [h] at ih
          simpa using ih
        | ok evs => simp

/-- Helper: the catalog load never propagates `ResourceNotFound` as a
failure (either read reporting it ends that read benignly). -/
theorem load_streams_ne_notFound (env : Env) (v : StreamsView) :
    load_streams env v ≠ Except.error ESError.ResourceNotFound := by
  unfold load_streams
  cases h1 : collectBenign env.streamsSteps with
  | error e =>
    have hb := collectBenign_ne_notFound env.streamsSteps
    rw [h1] at hb
    simpa using hb
  | ok created =>
    cases h2 : collectBenign env.allSteps with
    | error e =>
      have hb := collectBenign_ne_notFound env.allSteps
      rw [h2] at hb
      simpa using hb
    | ok changed => simp

/-- Claim C2 amended: "source not found" is treated as benign
end-of-data in the catalog load only (the catalog load can never fail
with `ResourceNotFound`); in the event load/refresh of a selected
stream it propagates like any other failure and is captured into the
error overlay, clearing the event list. -/
theorem notFound_benign_only_in_catalog (env : Env) (v : StreamsView) (name : String)
    (hStage : v.stage ≠ Stage.StreamPreview)
    (hSel : v.model.selected_stream = some name)
    (hRead : collectStrict (if rustTrim name = "$all" then env.readAll500
               else env.readStream500 name) = Except.error ESError.ResourceNotFound) :
    load_streams env v ≠ Except.error ESError.ResourceNotFound
    ∧ refresh env v
        = Except.ok { v with
            last_error := some ESError.ResourceNotFound
            model := { v.model with selected_stream_events := [] } } := by
  refine ⟨load_streams_ne_notFound env v, ?_⟩
  simp only [refresh, if_neg hStage, hSel]
  rw [hRead]

/-- Witness for the amended C2, at the concrete stream "orders" and a
client reporting `ResourceNotFound`. -/
theorem notFound_benign_only_in_catalog_witness :
    load_streams envRNF ordersView ≠ Except.error ESError.ResourceNotFound
    ∧ refresh envRNF ordersView
        = Except.ok { ordersView with
            last_error := some ESError.ResourceNotFound
            model := { ordersView.model with selected_stream_events := [] } } :=
  notFound_benign_only_in_catalog envRNF ordersView "orders" (by decide) rfl rfl

/-- Claim C3: when the read behind a refresh of the selected stream's
events fails, the previously loaded event list is replaced with the
empty list and the failure is stored in `last_error`; the refresh call
itself returns success to its caller. -/
theorem failed_refresh_discards_events (env : Env) (v : StreamsView) (name : String)
    (e : ESError)
    (hStage : v.stage ≠ Stage.StreamPreview)
    (hSel : v.model.selected_stream = some name)
    (hRead : collectStrict (if rustTrim name = "$all" then env.readAll500
               else env.readStream500 name) = Except.error e) :
    refresh env v
      = Except.ok { v with
          last_error := some e
          model := { v.model with selected_stream_events := [] } } := by
  simp only [refresh, if_neg hStage, hSel]
  rw [hRead]

/-- View holding a previously loaded event for "orders" (stale data
that a failed refresh must discard). -/
def staleView : StreamsView :=
  { StreamsView.default with
      stage := Stage.Stream
      model := { Model.default with
                   selected_stream := some "orders"
                   selected_stream_events :=
                     [{ stream_id := "orders", data := "1", is_json := false }] } }

/-- Read client whose selected-stream read fails with a transport
error. -/
def envFail : Env :=
  { streamsSteps := []
    allSteps := []
    readAll500 := []
    readStream500 := fun _ => [Except.error (ESError.otherError "transport")] }

/-- Witness for C3: a failed refresh of "orders" drops the previously
loaded event and stores the transport failure. -/
theorem failed_refresh_discards_events_witness :
    refresh envFail staleView
      = Except.ok { staleView with
          last_error := some (ESError.otherError "transport")
          model := { staleView.model with selected_stream_events := [] } } :=
  failed_refresh_discards_events envFail staleView "orders"
    (ESError.otherError "transport") (by decide) rfl rfl

/-- Helper: the insert-if-absent fold keeps the accumulator free of
duplicates. -/
theorem foldl_dedup_nodup (evs : List Event) (acc : List String) (h : acc.Nodup) :
    (evs.foldl (fun acc ev =>
        if acc.contains ev.stream_id then acc else acc ++ [ev.stream_id]) acc).Nodup := by
  induction evs generalizing acc with
  | nil => simpa using h
  | cons ev rest ih =>
    simp only [List.foldl_cons]
    by_cases hc : acc.contains ev.stream_id
    · rw [if_pos hc]
      exact ih acc h
    · rw [if_neg hc]
      refine ih _ ?_
      have hx : ev.stream_id ∉ acc := by
        intro hmem
        exact hc (List.elem_iff.mpr hmem)
      simp [List.nodup_append, h, hx]

/-- Claim C6: after every successful catalog load, `recently_changed`
contains each stream identifier at most once (deduplication by the
membership check at insertion time). -/
theorem catalog_load_recently_changed_nodup (env : Env) (v w : StreamsView)
    (h : load_streams env v = Except.ok w) :
    w.model.recently_changed.Nodup := by
  unfold load_streams at h
  cases h1 : collectBenign env.streamsSteps with
  | error e =>
    rw [h1] at h
    simp at h
  | ok created =>
    rw [h1] at h
    cases h2 : collectBenign env.allSteps with
    | error e =>
      rw [h2] at h
      simp at h
    | ok changed =>
      rw [h2] at h
      simp only [Except.ok.injEq] at h
      subst h
      simpa [buildRecentlyChanged] using foldl_dedup_nodup changed [] List.nodup_nil

/-- Read client whose global-log read reports the stream "a" twice. -/
def dupEnv : Env :=
  { streamsSteps := []
    allSteps := [Except.ok (some { stream_id := "a", data := "", is_json := false }),
                 Except.ok (some { stream_id := "b", data := "", is_json := false }),
                 Except.ok (some { stream_id := "a", data := "", is_json := false })]
    readAll500 := []
    readStream500 := fun _ => [] }

/-- Witness for C6: loading a catalog whose global log mentions "a"
twice yields `recently_changed = ["a", "b"]`, duplicate-free. -/
theorem catalog_load_recently_changed_nodup_witness :
    ({ StreamsView.default with
        model := { last_created := []
                   recently_changed := ["a", "b"]
                   selected_stream := none
                   selected_stream_events := [] } } :
      StreamsView).model.recently_changed.Nodup :=
  catalog_load_recently_changed_nodup dupEnv StreamsView.default _ rfl

/-- Claim C7: at render time in the StreamPreview stage with visible
height `areaH`, content height `contentH` and margin 2: if everything
fits the scroll is forced to 0, otherwise it is capped at
`contentH + 2 - areaH`; Down itself increments `scroll`
unconditionally (20 presses from 0 reach 20), and the render clamp at
`contentH = 10`, `areaH = 5` brings 20 back to the maximum 7. -/
theorem preview_scroll_clamp (areaH contentH s : Nat) (hC : contentH + 2 < U16) :
    ((contentH + 2 ≤ areaH → clampScroll areaH contentH s = 0)
      ∧ (areaH < contentH + 2 →
          clampScroll areaH contentH s = min s (contentH + 2 - areaH)))
    ∧ (pressKeys { StreamsView.default with stage := Stage.StreamPreview }
          (List.replicate 20 KeyCode.Down)
        = some { StreamsView.default with stage := Stage.StreamPreview, scroll := 20 }
      ∧ clampScroll 5 10 20 = 7) := by
  constructor
  · have hCm : contentH % U16 = contentH := Nat.mod_eq_of_lt (by omega)
    have hT : (2 + contentH % U16) % U16 = contentH + 2 := by
      rw [hCm, Nat.mod_eq_of_lt (by omega)]
      omega
    constructor
    · intro h
      simp only [clampScroll, hT]
      rw [if_pos (by omega)]
    · intro h
      simp only [clampScroll, hT]
      rw [if_neg (by omega), Nat.min_def]
      split_ifs <;> omega
  · exact ⟨by decide, by decide⟩

/-- Witness for C7: the clamp evaluated at the scenario values — 20
clamps to 7 when content height 10 exceeds visible height 5, and
scroll locks to 0 when the content fits. -/
theorem preview_scroll_clamp_witness :
    clampScroll 5 10 20 = 7 ∧ clampScroll 20 10 3 = 0 := by
  constructor
  · have h := ((preview_scroll_clamp 5 10 20 (by decide)).1).2 (by decide)
    rw [h]
    decide
  · exact ((preview_scroll_clamp 20 10 3 (by decide)).1).1 (by decide)

/-- View in the Stream stage with a nonzero row selection. -/
def streamStageView : StreamsView :=
  { StreamsView.default with stage := Stage.Stream, selected := 1 }

/-- Counterexample to claim C8: Left does change the state in the
Stream stage (the Left/Right arm carries no Main-only guard:
`selected_tab` toggles to 1 and `selected` resets to 0), while in the
Search stage — where the claim says it toggles — Left is ignored. -/
theorem left_key_not_main_search_only :
    on_key_pressed streamStageView KeyCode.Left
      = some ({ streamStageView with selected_tab := 1, selected := 0 }, Request.Noop)
    ∧ ({ streamStageView with selected_tab := 1, selected := 0 } : StreamsView)
        ≠ streamStageView
    ∧ on_key_pressed { StreamsView.default with stage := Stage.Search } KeyCode.Left
      = some ({ StreamsView.default with stage := Stage.Search }, Request.Noop) :=
  ⟨rfl, by decide, rfl⟩

/-- Claim C8 amended: with no pending error, Left and Right toggle
`selected_tab` between 0 and 1 and reset `selected` to 0 in every
stage except Search (Main, Stream and StreamPreview alike); in the
Search stage they are ignored and the state is unchanged. -/
theorem left_right_toggle_outside_search (v : StreamsView) (k : KeyCode)
    (hErr : v.last_error = none) (hk : k = KeyCode.Left ∨ k = KeyCode.Right) :
    (v.stage ≠ Stage.Search →
      on_key_pressed v k
        = some ({ v with selected_tab := (v.selected_tab + 1) % 2, selected := 0 },
            Request.Noop))
    ∧ (v.stage = Stage.Search → on_key_pressed v k = some (v, Request.Noop)) := by
  constructor
  · intro h
    cases hk with
    | inl h1 =>
      subst h1
      simp [on_key_pressed, handleStageKey, hErr, h]
    | inr h1 =>
      subst h1
      simp [on_key_pressed, handleStageKey, hErr, h]
  · intro h
    cases hk with
    | inl h1 =>
      subst h1
      simp [on_key_pressed, handleSearchKey, hErr, h]
    | inr h1 =>
      subst h1
      simp [on_key_pressed, handleSearchKey, hErr, h]

/-- Witness for the amended C8: Right toggles the tab in the Stream
stage; Left is ignored in the Search stage. -/
theorem left_right_toggle_outside_search_witness :
    on_key_pressed streamStageView KeyCode.Right
      = some ({ streamStageView with selected_tab := 1, selected := 0 }, Request.Noop)
    ∧ on_key_pressed { StreamsView.default with stage := Stage.Search } KeyCode.Left
      = some ({ StreamsView.default with stage := Stage.Search }, Request.Noop) :=
  ⟨(left_right_toggle_outside_search streamStageView KeyCode.Right rfl (Or.inr rfl)).1
      (by decide),
   (left_right_toggle_outside_search { StreamsView.default with stage := Stage.Search }
      KeyCode.Left rfl (Or.inl rfl)).2 rfl⟩

/-- Claim C9: a record flagged as JSON whose payload fails to parse
makes the preview render abort (the `.unwrap()` on the parse result),
and the fixed `<BINARY>` placeholder is produced exactly for records
not flagged as JSON — never as a degraded fallback for a JSON-flagged
record. -/
theorem json_parse_failure_aborts (renderLN : String → String)
    (parse : String → Option String) (ev : Event) :
    (ev.is_json = true → parse ev.data = none →
      renderPayload renderLN parse ev = PreviewContent.panicked)
    ∧ (renderPayload renderLN parse ev = PreviewContent.binaryPlaceholder
        ↔ ev.is_json = false) := by
  constructor
  · intro h1 h2
    simp [renderPayload, h1, h2]
  · cases hj : ev.is_json with
    | true =>
      simp only [renderPayload, hj, if_true]
      cases hp : parse ev.data with
      | none => simp
      | some s => simp
    | false => simp [renderPayload, hj]

/-- Witness for C9: a JSON-flagged record whose payload does not parse
aborts the render; a non-JSON record renders the placeholder. -/
theorem json_parse_failure_aborts_witness :
    renderPayload id (fun _ => none)
        { stream_id := "orders", data := "not-json", is_json := true }
      = PreviewContent.panicked
    ∧ renderPayload id (fun _ => none)
        { stream_id := "orders", data := "bytes", is_json := false }
      = PreviewContent.binaryPlaceholder :=
  ⟨(json_parse_failure_aborts id (fun _ => none)
      { stream_id := "orders", data := "not-json", is_json := true }).1 rfl rfl,
   (json_parse_failure_aborts id (fun _ => none)
      { stream_id := "orders", data := "bytes", is_json := false }).2.mpr rfl⟩

end StreamBrowser
